import Mathlib

/-!
Verification development for the akamai-reports resilience layer.

Shallow embedding of the request-resilience subsystem:
`tools/lib/cache/response_cache.py`, `tools/lib/resilience/circuit_breaker.py`,
`tools/lib/api_client.py`, `tools/lib/http/concurrent_client.py`,
`tools/lib/tracing/correlation.py`.

Conventions used throughout:
* Python values reachable in these call paths are modelled by `PyVal`
  (JSON data plus named non-serializable library objects).
* Machine time (`datetime.now()`) is modelled as an integer number of seconds.
* Fallible Python code is modelled with `Except`; an uncaught exception of a
  built-in kind (TypeError, ...) is a `PyErr` value.
-/

namespace AkamaiReports

/-- Python values as they occur in the repository's API-client call paths:
JSON-representable data (None, bool, int, str, list, dict with string keys)
plus non-JSON-serializable library objects (EdgeGridAuth, ConfigLoader, ...),
modelled as `obj` carrying the type name. -/
inductive PyVal where
  | null
  | bool (b : Bool)
  | int (n : Int)
  | str (s : String)
  | list (xs : List PyVal)
  | dict (kvs : List (String × PyVal))
  | obj (typeName : String)
  deriving Repr, Inhabited

/-- Built-in Python exception kinds that escape or are caught in the modelled
code paths. -/
inductive PyErr where
  | typeError
  | attributeError
  deriving Repr, DecidableEq

/-- The exception `json.dumps` raises on a non-serializable object. -/
inductive DumpErr where
  | typeError
  deriving Repr, DecidableEq

/-- Concatenate strings with a separator, as `sep.join(parts)` does. -/
def joinSep (sep : String) : List String → String
  | [] => ""
  | [x] => x
  | x :: y :: xs => x ++ sep ++ joinSep sep (y :: xs)

/-- Hex digit characters, lower case, as Python produces them. -/
def hexDigitChar (n : Nat) : Char :=
  if n < 10 then Char.ofNat (48 + n) else Char.ofNat (87 + n)

/-- Four-digit lower-case hex rendering of `n % 0x10000`, for `\uXXXX` escapes. -/
def hex4 (n : Nat) : String :=
  String.mk [hexDigitChar (n / 4096 % 16), hexDigitChar (n / 256 % 16),
    hexDigitChar (n / 16 % 16), hexDigitChar (n % 16)]

/-- JSON `\uXXXX` escape of a character, with surrogate pairs above the BMP,
as CPython's `ensure_ascii` encoder emits. -/
def uEscape (c : Char) : String :=
  let n := c.toNat
  if n < 0x10000 then "\\u" ++ hex4 n
  else
    let m := n - 0x10000
    "\\u" ++ hex4 (0xD800 + m / 0x400) ++ "\\u" ++ hex4 (0xDC00 + m % 0x400)

/-- Escape of one character inside a JSON string literal (CPython
`json.encoder`, `ensure_ascii=True`: backslash, quote, the short control
escapes, and `\uXXXX` for everything outside `0x20`--`0x7e`). -/
def escapeChar (c : Char) : String :=
  if c = '"' then "\\\""
  else if c = '\\' then "\\\\"
  else if c = '\n' then "\\n"
  else if c = '\t' then "\\t"
  else if c = '\r' then "\\r"
  else if c = '\x08' then "\\b"
  else if c = '\x0c' then "\\f"
  else if c.toNat < 0x20 || 0x7e < c.toNat then uEscape c
  else String.singleton c

/-- JSON rendering of a Python string (quoted, escaped). -/
def dumpStr (s : String) : String :=
  "\"" ++ String.join (s.data.map escapeChar) ++ "\""

mutual
/-- Model of `json.dumps(v, sort_keys=True)` as used by
`ResponseCache._get_cache_key` (response_cache.py lines 40-54): default
separators `", "` and `": "`, dictionary keys sorted, and a `TypeError` on a
non-serializable object. Keys of nested dictionaries are sorted after the
values are rendered, which renders the same text as sorting first since each
entry is rendered independently. -/
def dumpsVal : PyVal → Except DumpErr String
  | .null => .ok "null"
  | .bool true => .ok "true"
  | .bool false => .ok "false"
  | .int n => .ok (toString n)
  | .str s => .ok (dumpStr s)
  | .list xs => do
      let parts ← dumpsList xs
      .ok ("[" ++ joinSep ", " parts ++ "]")
  | .dict kvs => do
      let parts ← dumpsPairs kvs
      let sorted := List.mergeSort parts (fun a b => decide (a.1 ≤ b.1))
      .ok ("\x7b" ++ joinSep ", " (sorted.map (fun p => dumpStr p.1 ++ ": " ++ p.2)) ++ "\x7d")
  | .obj _ => .error .typeError

/-- Render each element of a JSON array, failing on the first
non-serializable element, as the recursive encoder does. -/
def dumpsList : List PyVal → Except DumpErr (List String)
  | [] => .ok []
  | v :: rest => do
      let s ← dumpsVal v
      let r ← dumpsList rest
      .ok (s :: r)

/-- Render each `(key, value)` entry of a JSON object, keeping the raw key
for sorting, failing on the first non-serializable value. -/
def dumpsPairs : List (String × PyVal) → Except DumpErr (List (String × String))
  | [] => .ok []
  | kv :: rest => do
      let s ← dumpsVal kv.2
      let r ← dumpsPairs rest
      .ok ((kv.1, s) :: r)
end

/-! SHA-256, as `hashlib.sha256(...).hexdigest()` computes it: the digest of
the UTF-8 bytes of the serialized key material, rendered as 64 lower-case hex
characters. Words are `Nat` reduced modulo `2^32`. -/

/-- Reduce to a 32-bit word. -/
def w32 (n : Nat) : Nat := n % 4294967296

/-- Rotate the 32-bit word `x` right by `n` positions. -/
def rotr (n x : Nat) : Nat := w32 ((x >>> n) ||| (x <<< (32 - n)))

/-- SHA-256 Σ0. -/
def bigSigma0 (x : Nat) : Nat := (rotr 2 x) ^^^ (rotr 13 x) ^^^ (rotr 22 x)

/-- SHA-256 Σ1. -/
def bigSigma1 (x : Nat) : Nat := (rotr 6 x) ^^^ (rotr 11 x) ^^^ (rotr 25 x)

/-- SHA-256 σ0. -/
def smallSigma0 (x : Nat) : Nat := (rotr 7 x) ^^^ (rotr 18 x) ^^^ (x >>> 3)

/-- SHA-256 σ1. -/
def smallSigma1 (x : Nat) : Nat := (rotr 17 x) ^^^ (rotr 19 x) ^^^ (x >>> 10)

/-- SHA-256 Ch, with 32-bit complement written as xor with the all-ones word. -/
def shaCh (e f g : Nat) : Nat := (e &&& f) ^^^ ((e ^^^ 0xffffffff) &&& g)

/-- SHA-256 Maj. -/
def shaMaj (a b c : Nat) : Nat := (a &&& b) ^^^ (a &&& c) ^^^ (b &&& c)

/-- The round-constant table of FIPS 180-4 (fractional parts of the cube
roots of the first 64 primes), written in decimal. -/
def shaK : List Nat :=
  [1116352408, 1899447441, 3049323471, 3921009573, 961987163,
   1508970993, 2453635748, 2870763221, 3624381080, 310598401,
   607225278, 1426881987, 1925078388, 2162078206, 2614888103,
   3248222580, 3835390401, 4022224774, 264347078, 604807628,
   770255983, 1249150122, 1555081692, 1996064986, 2554220882,
   2821834349, 2952996808, 3210313671, 3336571891, 3584528711,
   113926993, 338241895, 666307205, 773529912, 1294757372,
   1396182291, 1695183700, 1986661051, 2177026350, 2456956037,
   2730485921, 2820302411, 3259730800, 3345764771, 3516065817,
   3600352804, 4094571909, 275423344, 430227734, 506948616,
   659060556, 883997877, 958139571, 1322822218, 1537002063,
   1747873779, 1955562222, 2024104815, 2227730452, 2361852424,
   2428436474, 2756734187, 3204031479, 3329325298]

/-- Big-endian 8-byte rendering of the bit length, appended by the padding. -/
def lenBytes (L : Nat) : List Nat :=
  [(L >>> 56) % 256, (L >>> 48) % 256, (L >>> 40) % 256, (L >>> 32) % 256,
   (L >>> 24) % 256, (L >>> 16) % 256, (L >>> 8) % 256, L % 256]

/-- SHA-256 message padding: a 0x80 byte, zeros to 56 mod 64, then the
64-bit big-endian message bit length. -/
def padMessage (msg : List Nat) : List Nat :=
  msg ++ [0x80] ++ List.replicate ((119 - msg.length % 64) % 64) 0 ++ lenBytes (8 * msg.length)

/-- Split into 64-byte chunks; the fuel equals the list length, which is
enough since each step drops at least one element from a nonempty list. -/
def toChunksGo : Nat → List Nat → List (List Nat)
  | 0, _ => []
  | _, [] => []
  | fuel + 1, bs => bs.take 64 :: toChunksGo fuel (bs.drop 64)

/-- Split a byte list into 64-byte chunks. -/
def toChunks (bs : List Nat) : List (List Nat) := toChunksGo bs.length bs

/-- The 16 big-endian 32-bit words of a 64-byte chunk. -/
def chunkWords (chunk : List Nat) : List Nat :=
  (List.range 16).map (fun i =>
    chunk.getD (4 * i) 0 * 16777216 + chunk.getD (4 * i + 1) 0 * 65536 +
      chunk.getD (4 * i + 2) 0 * 256 + chunk.getD (4 * i + 3) 0)

/-- Extend the 16 message words to the 64-word schedule. -/
def schedule (ws : List Nat) : List Nat :=
  (List.range 48).foldl
    (fun w _ =>
      let i := w.length
      w ++ [w32 (smallSigma1 (w.getD (i - 2) 0) + w.getD (i - 7) 0 +
        smallSigma0 (w.getD (i - 15) 0) + w.getD (i - 16) 0)])
    ws

/-- The eight 32-bit working variables of the compression function. -/
structure Sha256State where
  a : Nat
  b : Nat
  c : Nat
  d : Nat
  e : Nat
  f : Nat
  g : Nat
  h : Nat
  deriving Repr

/-- The initial hash value of FIPS 180-4 (fractional parts of the square
roots of the first 8 primes), written in decimal. -/
def shaInit : Sha256State :=
  ⟨1779033703, 3144134277, 1013904242, 2773480762,
   1359893119, 2600822924, 528734635, 1541459225⟩

/-- One round of the compression function. -/
def shaRound (s : Sha256State) (k w : Nat) : Sha256State :=
  let t1 := w32 (s.h + bigSigma1 s.e + shaCh s.e s.f s.g + k + w)
  let t2 := w32 (bigSigma0 s.a + shaMaj s.a s.b s.c)
  ⟨w32 (t1 + t2), s.a, s.b, s.c, w32 (s.d + t1), s.e, s.f, s.g⟩

/-- Word-wise modular addition of the compressed state into the running
state, the final step of each chunk. -/
def addState (s r : Sha256State) : Sha256State :=
  ⟨w32 (s.a + r.a), w32 (s.b + r.b), w32 (s.c + r.c), w32 (s.d + r.d),
   w32 (s.e + r.e), w32 (s.f + r.f), w32 (s.g + r.g), w32 (s.h + r.h)⟩

/-- Compress one 64-byte chunk into the running hash state. -/
def processChunk (s : Sha256State) (chunk : List Nat) : Sha256State :=
  addState s
    (((List.zip shaK (schedule (chunkWords chunk))).foldl
      (fun st kw => shaRound st kw.1 kw.2) s))

/-- SHA-256 of a byte list, as the eight final hash words. -/
def sha256Words (msg : List Nat) : Sha256State :=
  (toChunks (padMessage msg)).foldl processChunk shaInit

/-- The 256-bit digest as one natural number (big-endian word order),
which determines the hex digest. -/
def digestNat (s : Sha256State) : Nat :=
  ((((((s.a * 4294967296 + s.b) * 4294967296 + s.c) * 4294967296 + s.d) * 4294967296 +
    s.e) * 4294967296 + s.f) * 4294967296 + s.g) * 4294967296 + s.h

/-- The digest as 64 lower-case hex characters, as `hexdigest()` returns. -/
def sha256hex (msg : List Nat) : String :=
  let d := digestNat (sha256Words msg)
  String.mk ((List.range 64).map (fun i => hexDigitChar (d >>> (4 * (63 - i)) % 16)))

/-- UTF-8 encoding of one character, as `str.encode()` produces. -/
def charUtf8 (c : Char) : List Nat :=
  let n := c.toNat
  if n < 0x80 then [n]
  else if n < 0x800 then [0xc0 + (n >>> 6), 0x80 + n % 64]
  else if n < 0x10000 then [0xe0 + (n >>> 12), 0x80 + (n >>> 6) % 64, 0x80 + n % 64]
  else [0xf0 + (n >>> 18), 0x80 + (n >>> 12) % 64, 0x80 + (n >>> 6) % 64, 0x80 + n % 64]

/-- UTF-8 encoding of a string, as `str.encode()` produces. -/
def utf8Bytes (s : String) : List Nat := (s.data.map charUtf8).flatten

/-- Model of `ResponseCache._get_cache_key` (response_cache.py lines 40-54):
`key_data = {"func": func_name, "args": kwargs}`, serialized with
`json.dumps(key_data, sort_keys=True)`, UTF-8 encoded and hashed with
SHA-256; a non-serializable argument raises `TypeError` before any hashing. -/
def _get_cache_key (func_name : String) (kwargs : List (String × PyVal)) :
    Except DumpErr String :=
  (dumpsVal (.dict [("func", .str func_name), ("args", .dict kwargs)])).map
    (fun key_json => sha256hex (utf8Bytes key_json))

/-! Bounds: every hash word stays below `2^32`, hence the digest is a fixed
256-bit quantity. This is what makes the key space finite. -/

/-- All eight state words are 32-bit. -/
def bounded32 (s : Sha256State) : Prop :=
  s.a < 4294967296 ∧ s.b < 4294967296 ∧ s.c < 4294967296 ∧ s.d < 4294967296 ∧
  s.e < 4294967296 ∧ s.f < 4294967296 ∧ s.g < 4294967296 ∧ s.h < 4294967296

/-! Response cache (`tools/lib/cache/response_cache.py`).

The cache directory is modelled as an association list from key to the file's
decoded content: `none` stands for a file whose bytes do not decode as JSON
(`json.JSONDecodeError` / `UnicodeDecodeError`, both caught via `ValueError`),
`some doc` for a file holding the JSON document `doc`; for a serializable
document, decoding the dumped text yields the document back, so the document
itself is stored. Wall-clock time (`datetime.now()`) is an integer number of
seconds; the `datetime.isoformat` / `datetime.fromisoformat` pair is modelled
by the decimal rendering of that integer together with its partial parse,
which is faithful in the properties used: formatting is injective, parsing
the formatted text returns the original timestamp, parsing a malformed
string raises `ValueError` (`none`), and parsing a non-string raises
`TypeError`. -/

/-- Value of a decimal digit character, `none` otherwise. -/
def digitVal (c : Char) : Option Nat :=
  if 48 ≤ c.toNat ∧ c.toNat ≤ 57 then some (c.toNat - 48) else none

/-- Model of `datetime.isoformat()` on the integer-seconds timestamp model:
the decimal rendering of the timestamp. -/
def isoFormat (n : Nat) : String :=
  if n = 0 then "0" else String.mk (((Nat.digits 10 n).map Nat.digitChar).reverse)

/-- Parse a run of decimal digit characters; `none` on any non-digit. -/
def parseDigitsChars : List Char → Option (List Nat)
  | [] => some []
  | c :: cs => do
      let d ← digitVal c
      let ds ← parseDigitsChars cs
      some (d :: ds)

/-- Model of `datetime.fromisoformat` on a string: parses the decimal
rendering back, `none` (a raised `ValueError`) on a malformed string. -/
def fromIsoFormat (s : String) : Option Nat :=
  if s.data.isEmpty then none
  else (parseDigitsChars s.data).map (fun ds => Nat.ofDigits 10 ds.reverse)

/-- The cache directory: keys mapped to decoded file contents. -/
abbrev CacheStore := List (String × Option PyVal)

/-- Removal of a cache file (`cache_file.unlink()`). -/
def storeErase (store : CacheStore) (key : String) : CacheStore :=
  store.filter (fun kv => !(kv.1 == key))

/-- Model of `ResponseCache.get` (response_cache.py lines 56-87). Returns
the cached value (`none` for a miss) together with the directory afterwards.
`json.JSONDecodeError`, `KeyError` (missing `expires_at` or `value` field of
a JSON object) and `ValueError` (malformed timestamp string) are caught: the
file is deleted and the call is a miss. Subscripting a decoded non-object
document, or handing a non-string to `fromisoformat`, raises `TypeError`,
which the `except` clause does not catch: it escapes and the file stays. -/
def cacheGet (store : CacheStore) (now : Nat) (key : String) :
    Except PyErr (Option PyVal × CacheStore) :=
  match List.lookup key store with
  | none => .ok (none, store)
  | some none => .ok (none, storeErase store key)
  | some (some doc) =>
    match doc with
    | .dict kvs =>
      match List.lookup "expires_at" kvs with
      | none => .ok (none, storeErase store key)
      | some (.str s) =>
        match fromIsoFormat s with
        | none => .ok (none, storeErase store key)
        | some expires_at =>
          if expires_at ≤ now then .ok (none, storeErase store key)
          else
            match List.lookup "value" kvs with
            | some v => .ok (some v, store)
            | none => .ok (none, storeErase store key)
      | some _ => .error .typeError
    | _ => .error .typeError

/-- The document `ResponseCache.set` writes for `value` at time `now`. -/
def cacheEntryDoc (now ttl : Nat) (value : PyVal) : PyVal :=
  .dict [("value", value), ("expires_at", .str (isoFormat (now + ttl)))]

/-- Model of `ResponseCache.set` (response_cache.py lines 89-103): writes
`{"value": value, "expires_at": (now + self.ttl).isoformat()}` to the key's
file; `json.dump` raises `TypeError` on a non-serializable value. -/
def cacheSet (store : CacheStore) (now ttl : Nat) (key : String) (value : PyVal) :
    Except PyErr CacheStore :=
  match dumpsVal (cacheEntryDoc now ttl value) with
  | .error _ => .error .typeError
  | .ok _ => .ok ((key, some (cacheEntryDoc now ttl value)) :: storeErase store key)

/-- The miss path of `cached_call`: run the function, store its result,
return it. The function's own typed failure propagates unchanged. -/
def cachedCallMiss {ε : Type} (store : CacheStore) (now ttl : Nat)
    (func : Except ε PyVal) (cache_key : String) :
    Except (PyErr ⊕ ε) (PyVal × CacheStore) :=
  match func with
  | .error e => .error (.inr e)
  | .ok result =>
    match cacheSet store now ttl cache_key result with
    | .error e => .error (.inl e)
    | .ok store2 => .ok (result, store2)

/-- Model of `ResponseCache.cached_call` (response_cache.py lines 105-135):
compute the key (an uncaught `TypeError` for non-serializable arguments),
try the cache, on a hit return the cached value, otherwise run `func` and
store the result. Python's `if cached_result is not None` cannot tell a
cached JSON `null` from a miss, so a cached `null` takes the miss path. -/
def cached_call {ε : Type} (store : CacheStore) (now ttl : Nat)
    (func : Except ε PyVal) (func_name : String) (kwargs : List (String × PyVal)) :
    Except (PyErr ⊕ ε) (PyVal × CacheStore) :=
  match _get_cache_key func_name kwargs with
  | .error _ => .error (.inl .typeError)
  | .ok cache_key =>
    match cacheGet store now cache_key with
    | .error e => .error (.inl e)
    | .ok (some (.null), store1) => cachedCallMiss store1 now ttl func cache_key
    | .ok (some v, store1) => .ok (v, store1)
    | .ok (none, store1) => cachedCallMiss store1 now ttl func cache_key

/-- The keyword arguments the cache-enabled branch of `call_traffic_api`
passes to `cached_call` (api_client.py lines 484-502): they include the
`EdgeGridAuth` and `ConfigLoader` objects themselves. -/
def call_traffic_api_kwargs (url : String) (params payload : PyVal) :
    List (String × PyVal) :=
  [("url", .str url), ("params", params), ("payload", payload),
   ("auth", .obj "EdgeGridAuth"), ("config_loader", .obj "ConfigLoader")]

/-- Model of the cache-enabled branch of `call_traffic_api`: `cached_call`
on the circuit-breaker-wrapped request (here `inner`) under the name
`"call_traffic_api"` with the keyword arguments above. -/
def call_traffic_api_cached {ε : Type} (store : CacheStore) (now ttl : Nat)
    (inner : Except ε PyVal) (url : String) (params payload : PyVal) :
    Except (PyErr ⊕ ε) (PyVal × CacheStore) :=
  cached_call store now ttl inner "call_traffic_api"
    (call_traffic_api_kwargs url params payload)

/-! Circuit breaker (`tools/lib/resilience/circuit_breaker.py`).

`datetime.now()` is an integer number of seconds. A wrapped operation's
outcome is a `Bool`: `true` when it returns, `false` when it raises; the
breaker re-raises the operation's exception after `_on_failure`, so `call`
reports whether the operation ran and how it ended. -/

/-- The three breaker states (circuit_breaker.py lines 16-21). -/
inductive CircuitState where
  | CLOSED
  | OPEN
  | HALF_OPEN
  deriving Repr, DecidableEq

/-- The breaker's configuration and mutable fields
(circuit_breaker.py lines 46-62). -/
structure CircuitBreaker where
  failure_threshold : Nat
  recovery_timeout : Int
  success_threshold : Nat
  state : CircuitState
  failure_count : Nat
  success_count : Nat
  last_failure_time : Option Int
  deriving Repr, DecidableEq

/-- A freshly constructed breaker: CLOSED, zero counters, no failure time. -/
def CircuitBreaker.mk0 (failure_threshold : Nat) (recovery_timeout : Int)
    (success_threshold : Nat) : CircuitBreaker :=
  ⟨failure_threshold, recovery_timeout, success_threshold, .CLOSED, 0, 0, none⟩

/-- Model of `_should_attempt_reset` (lines 138-144): true when no failure
was recorded, or when strictly more than `recovery_timeout` seconds elapsed
since the last failure. -/
def _should_attempt_reset (cb : CircuitBreaker) (now : Int) : Bool :=
  match cb.last_failure_time with
  | none => true
  | some t => cb.recovery_timeout < now - t

/-- Model of `_time_until_retry` (lines 146-153): remaining cool-down
seconds, floored at zero. -/
def _time_until_retry (cb : CircuitBreaker) (now : Int) : Int :=
  match cb.last_failure_time with
  | none => 0
  | some t => max 0 (cb.recovery_timeout - (now - t))

/-- The locked block at the top of `call` (lines 80-92): while OPEN, either
transition to HALF_OPEN (cool-down elapsed) or reject with the remaining
cool-down, the operation never running. -/
def cbGate (cb : CircuitBreaker) (now : Int) : Except Int CircuitBreaker :=
  if cb.state = .OPEN then
    if _should_attempt_reset cb now then .ok { cb with state := .HALF_OPEN }
    else .error (_time_until_retry cb now)
  else .ok cb

/-- Model of `_on_success` (lines 102-115). -/
def _on_success (cb : CircuitBreaker) : CircuitBreaker :=
  let cb1 := { cb with failure_count := 0 }
  if cb1.state = .HALF_OPEN then
    let cb2 := { cb1 with success_count := cb1.success_count + 1 }
    if cb2.success_threshold ≤ cb2.success_count then
      { cb2 with state := .CLOSED, success_count := 0 }
    else cb2
  else cb1

/-- Model of `_on_failure` (lines 117-136). -/
def _on_failure (cb : CircuitBreaker) (now : Int) : CircuitBreaker :=
  let cb1 := { cb with
    failure_count := cb.failure_count + 1, last_failure_time := some now }
  if cb1.state = .HALF_OPEN then
    { cb1 with state := .OPEN, success_count := 0 }
  else if cb1.failure_threshold ≤ cb1.failure_count then
    { cb1 with state := .OPEN, success_count := 0 }
  else cb1

/-- What one `call` produced: a `CircuitBreakerOpenError` carrying the
remaining cool-down (the operation never ran), or the operation ran and
returned (`true`) / raised (`false`). -/
inductive CallResult where
  | rejected (remaining : Int)
  | ran (ok : Bool)
  deriving Repr, DecidableEq

/-- Model of `CircuitBreaker.call` (lines 64-100): the gate runs under the
lock; if it rejects, the operation is not invoked and the breaker is
unchanged; otherwise the operation runs and `_on_success` / `_on_failure`
applies. -/
def CircuitBreaker.call (cb : CircuitBreaker) (now : Int) (outcome : Bool) :
    CallResult × CircuitBreaker :=
  match cbGate cb now with
  | .error remaining => (.rejected remaining, cb)
  | .ok cb1 =>
      if outcome then (.ran true, _on_success cb1)
      else (.ran false, _on_failure cb1 now)

/-- Model of `reset` (lines 155-166). -/
def CircuitBreaker.resetCB (cb : CircuitBreaker) : CircuitBreaker :=
  { cb with
    state := .CLOSED, failure_count := 0, success_count := 0,
    last_failure_time := none }

/-- Apply a sequence of consecutive failing calls at the given times. -/
def applyFailures (cb : CircuitBreaker) : List Int → CircuitBreaker
  | [] => cb
  | now :: rest => applyFailures (cb.call now false).2 rest

/-- Breaker states reachable from a fresh breaker by calls and resets,
including the state visible while the operation runs (after the gate,
before the outcome). -/
inductive Reachable (ft : Nat) (rt : Int) (st : Nat) : CircuitBreaker → Prop where
  | init : Reachable ft rt st (CircuitBreaker.mk0 ft rt st)
  | step (cb : CircuitBreaker) (now : Int) (outcome : Bool) :
      Reachable ft rt st cb → Reachable ft rt st (cb.call now outcome).2
  | gated (cb cb1 : CircuitBreaker) (now : Int) :
      Reachable ft rt st cb → cbGate cb now = .ok cb1 → Reachable ft rt st cb1
  | protoReset (cb : CircuitBreaker) :
      Reachable ft rt st cb → Reachable ft rt st cb.resetCB

/-! Request executor with retry (`tools/lib/api_client.py` lines 120-435)
and the correlation-id context (`tools/lib/tracing/correlation.py`). -/

/-- The typed terminal errors of the exception taxonomy
(`tools/lib/exceptions.py`). -/
inductive ApiError where
  | requestError (status : Nat) (message : String)
  | authenticationError
  | authorizationError
  | rateLimitError
  | serverError (status : Nat)
  | timeoutError
  | networkError (message : String)
  deriving Repr, DecidableEq

/-- One attempt's outcome at the transport: an HTTP response (status code,
raw text, decoded JSON body), a `requests` timeout, or another transport
exception with its text. -/
inductive Outcome where
  | response (status : Nat) (text : String) (body : PyVal)
  | timeout
  | netError (message : String)

/-- The retry-relevant configuration values read from `ConfigLoader`. -/
structure RetryConfig where
  max_retries : Nat
  exponential_backoff_base : Nat
  network_error_delay : Nat
  deriving Repr

/-- Model of `_handle_rate_limit` (api_client.py lines 345-366): before the
last allowed attempt it sleeps exactly `backoff_base ** attempt` seconds
(`time.sleep(backoff_base**attempt)`) -- no random jitter is sampled and no
cap is applied -- and retries (`.ok (some delay)`); on the last attempt it
raises `APIRateLimitError`. -/
def _handle_rate_limit (attempt max_retries backoff_base : Nat) :
    Except ApiError (Option Nat) :=
  if attempt < max_retries - 1 then .ok (some (backoff_base ^ attempt))
  else .error .rateLimitError

/-- Model of `_handle_server_error` (api_client.py lines 369-391): same
deterministic uncapped sleep of `backoff_base ** attempt` seconds, then
`APIServerError(status)` once retries are exhausted. -/
def _handle_server_error (status attempt max_retries backoff_base : Nat) :
    Except ApiError (Option Nat) :=
  if attempt < max_retries - 1 then .ok (some (backoff_base ^ attempt))
  else .error (.serverError status)

/-- Model of `_handle_timeout_retry` (lines 394-408): retry with no sleep,
`APITimeoutError` on the last attempt. -/
def _handle_timeout_retry (attempt max_retries : Nat) : Except ApiError Unit :=
  if max_retries - 1 ≤ attempt then .error .timeoutError else .ok ()

/-- Model of `_handle_network_retry` (lines 411-435): sleep the fixed
configured delay and retry, `APINetworkError` chained to the cause on the
last attempt. -/
def _handle_network_retry (message : String) (attempt max_retries delay : Nat) :
    Except ApiError Nat :=
  if attempt < max_retries - 1 then .ok delay
  else .error (.networkError ("Network error: " ++ message))

/-- Python `len(x)`: lists, strings and dicts are sized; `len` of anything
else raises `TypeError`. -/
def pyLen : PyVal → Except PyErr Nat
  | .list xs => .ok xs.length
  | .str s => .ok s.length
  | .dict kvs => .ok kvs.length
  | _ => .error .typeError

/-- The `data.get("data", [])` read in `_handle_success_response`: `.get`
on a decoded non-object raises `AttributeError`. -/
def pyGetData : PyVal → Except PyErr PyVal
  | .dict kvs => .ok ((List.lookup "data" kvs).getD (.list []))
  | _ => .error .attributeError

/-- Model of `_handle_success_response` (lines 269-303): computes
`len(data.get("data", []))` for logging (an uncaught `AttributeError` on a
non-object body, an uncaught `TypeError` on an unsized `data` field), checks
the data-point limit (log only), optionally validates the response schema
(the env toggle; a failure raises the typed `APIRequestError` 422), and
returns the parsed body. -/
def _handle_success_response (body : PyVal) (envValidate : Bool)
    (schemaOk : PyVal → Bool) : Except (PyErr ⊕ ApiError) PyVal :=
  match pyGetData body with
  | .error e => .error (.inl e)
  | .ok dataField =>
    match pyLen dataField with
    | .error e => .error (.inl e)
    | .ok _ =>
      if envValidate && !schemaOk body then
        .error (.inr (.requestError 422 "schema validation failed"))
      else .ok body

/-- What one attempt decided: final success with the parsed payload, retry
after an optional recorded sleep, or raise. -/
inductive StepResult where
  | success (payload : PyVal)
  | retryAfter (sleep : Option Nat)
  | raised (e : PyErr ⊕ ApiError)
  deriving Repr

/-- Model of `_handle_response_status` (lines 224-266): 200 delegates to the
success handler, 400/401/403 raise immediately, 429 and 5xx delegate to the
retry handlers, anything else raises `APIRequestError`. -/
def _handle_response_status (status : Nat) (text : String) (body : PyVal)
    (attempt : Nat) (cfg : RetryConfig) (envValidate : Bool)
    (schemaOk : PyVal → Bool) : StepResult :=
  if status = 200 then
    match _handle_success_response body envValidate schemaOk with
    | .ok data => .success data
    | .error e => .raised e
  else if status = 400 then .raised (.inr (.requestError 400 text))
  else if status = 401 then .raised (.inr .authenticationError)
  else if status = 403 then .raised (.inr .authorizationError)
  else if status = 429 then
    match _handle_rate_limit attempt cfg.max_retries cfg.exponential_backoff_base with
    | .ok d => .retryAfter d
    | .error e => .raised (.inr e)
  else if 500 ≤ status then
    match _handle_server_error status attempt cfg.max_retries cfg.exponential_backoff_base with
    | .ok d => .retryAfter d
    | .error e => .raised (.inr e)
  else .raised (.inr (.requestError status ("Unexpected status code: " ++ toString status)))

/-- One iteration of the retry loop body (lines 168-219): the response path
goes through `_handle_response_status`; the two `except` clauses go through
the timeout / network handlers. -/
def attemptStep (outcome : Outcome) (attempt : Nat) (cfg : RetryConfig)
    (envValidate : Bool) (schemaOk : PyVal → Bool) : StepResult :=
  match outcome with
  | .response status text body =>
      _handle_response_status status text body attempt cfg envValidate schemaOk
  | .timeout =>
      match _handle_timeout_retry attempt cfg.max_retries with
      | .ok _ => .retryAfter none
      | .error e => .raised (.inr e)
  | .netError msg =>
      match _handle_network_retry msg attempt cfg.max_retries cfg.network_error_delay with
      | .ok d => .retryAfter (some d)
      | .error e => .raised (.inr e)

/-- Python truthiness of the stored correlation id: absent or empty is falsy. -/
def corrFalsy : Option String → Bool
  | none => true
  | some s => s.isEmpty

/-- Model of lines 153-155 with `set_correlation_id` / `get_correlation_id`
(correlation.py lines 29-46): generate a fresh correlation id only when none
is active. -/
def setupCorrelation (current : Option String) (fresh : String) : Option String :=
  if corrFalsy current then some fresh else current

/-- The retry loop (lines 168-221) with `remaining` attempts left, starting
at index `attempt`: returns the loop's result (`.ok none` when the loop
falls through to the final `return None`), the correlation id read and
logged at each attempt performed, and the seconds slept. The handlers only
read the correlation context; none of them writes it. -/
def retryLoop (transport : Nat → Outcome) (cfg : RetryConfig) (envValidate : Bool)
    (schemaOk : PyVal → Bool) (corr : Option String) :
    Nat → Nat → Except (PyErr ⊕ ApiError) (Option PyVal) × List (Option String) × List Nat
  | 0, _ => (.ok none, [], [])
  | remaining + 1, attempt =>
    match attemptStep (transport attempt) attempt cfg envValidate schemaOk with
    | .success v => (.ok (some v), [corr], [])
    | .raised e => (.error e, [corr], [])
    | .retryAfter d =>
      let rest := retryLoop transport cfg envValidate schemaOk corr remaining (attempt + 1)
      (rest.1, corr :: rest.2.1, d.toList ++ rest.2.2)

/-- Model of `_make_api_request_with_retry` (lines 120-221): establish the
correlation id (generated at most once, only when none is active), then run
up to `max_retries` attempts against the transport. Returns the result, the
established correlation id, the id logged at each attempt, and the sleeps. -/
def _make_api_request_with_retry (transport : Nat → Outcome) (cfg : RetryConfig)
    (envValidate : Bool) (schemaOk : PyVal → Bool) (corr0 : Option String)
    (fresh : String) :
    Except (PyErr ⊕ ApiError) (Option PyVal) × Option String ×
      List (Option String) × List Nat :=
  let corr := setupCorrelation corr0 fresh
  let r := retryLoop transport cfg envValidate schemaOk corr cfg.max_retries 0
  (r.1, corr, r.2.1, r.2.2)

/-- A 200 body the success handler processes without an uncaught built-in
exception: a JSON object whose `data` field, when present, is sized. -/
def body200Ok (body : PyVal) : Bool :=
  match pyGetData body with
  | .error _ => false
  | .ok d =>
    match pyLen d with
    | .error _ => false
    | .ok _ => true

/-! Concurrent batch executor (`tools/lib/http/concurrent_client.py`). -/

/-- One entry of the results dictionary: the function's return value, or the
`{"success": False, "error": str(e)}` record written when the item's future
raised. -/
inductive BatchEntry (β : Type) where
  | result (val : β)
  | errorRecord (error : String)
  deriving Repr, DecidableEq

/-- Python dict assignment `d[k] = v`: replaces the value at an existing
key, otherwise appends the binding. -/
def dictInsert {α β : Type} [DecidableEq α] :
    List (α × β) → α → β → List (α × β)
  | [], k, v => [(k, v)]
  | kv0 :: rest, k, v =>
      if kv0.1 = k then (kv0.1, v) :: rest else kv0 :: dictInsert rest k v

/-- The entry recorded for one item from its call's outcome. -/
def batchEntryOf {β : Type} : Except String β → BatchEntry β
  | .ok v => .result v
  | .error e => .errorRecord e

/-- Collection of one item's future (the `try`/`except` body of the result
loop): `results[item] = result` when the future resolved, and
`results[item] = {"success": False, "error": str(e)}` when it raised. -/
def batchStep {α β : Type} [DecidableEq α] (fn : α → Except String β)
    (results : List (α × BatchEntry β)) (item : α) : List (α × BatchEntry β) :=
  match fn item with
  | .ok v => dictInsert results item (.result v)
  | .error e => dictInsert results item (.errorRecord e)

/-- Model of `ConcurrentAPIClient.execute_batch` (concurrent_client.py lines
64-112): one future is submitted per item of the list; collection then
writes `results[item]` for every submitted item in submission order (the
`except Exception` catches everything, including the per-item collection
timeout, so collection itself never raises). The outcome of one item is
`fn item` and depends on nothing else. -/
def execute_batch {α β : Type} [DecidableEq α] (fn : α → Except String β)
    (items : List α) : List (α × BatchEntry β) :=
  items.foldl (batchStep fn) []

/-! Apparatus for the key-space argument: the digest value behind a cache
key, and the embedding of the naturals into keyword-argument sets. -/

/-- The numeric 256-bit digest behind `_get_cache_key` (zero when the
serialization raises); the hex key is the fixed-width rendering of this
number, so equal digests give equal keys. -/
def keyDigest (func_name : String) (kwargs : List (String × PyVal)) : Nat :=
  match dumpsVal (.dict [("func", .str func_name), ("args", .dict kwargs)]) with
  | .ok s => digestNat (sha256Words (utf8Bytes s))
  | .error _ => 0

/-- The keyword-argument set `{"x": n}`, embedding the naturals. -/
def injKw (n : Nat) : List (String × PyVal) := [("x", .int (Int.ofNat n))]

/-! Supporting lemmas. -/

theorem w32_lt (n : Nat) : w32 n < 4294967296 :=
  Nat.mod_lt _ (by norm_num)

theorem addState_bounded (s r : Sha256State) : bounded32 (addState s r) := by
  refine ⟨?_, ?_, ?_, ?_, ?_, ?_, ?_, ?_⟩ <;> exact w32_lt _

theorem processChunk_bounded (s : Sha256State) (chunk : List Nat) :
    bounded32 (processChunk s chunk) := addState_bounded _ _

theorem shaInit_bounded : bounded32 shaInit := by
  refine ⟨?_, ?_, ?_, ?_, ?_, ?_, ?_, ?_⟩ <;> norm_num [shaInit]

theorem foldl_processChunk_bounded (l : List (List Nat)) (s : Sha256State)
    (hs : bounded32 s) : bounded32 (l.foldl processChunk s) := by
  induction l generalizing s with
  | nil => exact hs
  | cons c cs ih =>
      rw [List.foldl_cons]
      exact ih _ (processChunk_bounded _ _)

theorem sha256Words_bounded (msg : List Nat) : bounded32 (sha256Words msg) :=
  foldl_processChunk_bounded _ _ shaInit_bounded

theorem mul_add_lt_word {x M y : Nat} (hx : x < M) (hy : y < 4294967296) :
    x * 4294967296 + y < M * 4294967296 := by
  have h1 : x + 1 ≤ M := hx
  calc x * 4294967296 + y < (x + 1) * 4294967296 := by omega
    _ ≤ M * 4294967296 := Nat.mul_le_mul_right _ h1

theorem digestNat_lt (s : Sha256State) (hb : bounded32 s) :
    digestNat s < 2 ^ 256 := by
  obtain ⟨ha, hbb, hc, hd, he, hf, hg, hh⟩ := hb
  have h1 := mul_add_lt_word ha hbb
  have h2 := mul_add_lt_word h1 hc
  have h3 := mul_add_lt_word h2 hd
  have h4 := mul_add_lt_word h3 he
  have h5 := mul_add_lt_word h4 hf
  have h6 := mul_add_lt_word h5 hg
  have h7 := mul_add_lt_word h6 hh
  unfold digestNat
  exact lt_of_lt_of_le h7 (by norm_num)

theorem digitVal_digitChar {d : Nat} (hd : d < 10) :
    digitVal (Nat.digitChar d) = some d := by
  interval_cases d <;> rfl

theorem parseDigitsChars_digitChar (l : List Nat) (hl : ∀ d ∈ l, d < 10) :
    parseDigitsChars (l.map Nat.digitChar) = some l := by
  induction l with
  | nil => rfl
  | cons d ds ih =>
      have hd : d < 10 := hl d (List.mem_cons_self _ _)
      have hds : ∀ x ∈ ds, x < 10 := fun x hx => hl x (List.mem_cons_of_mem _ hx)
      simp [parseDigitsChars, digitVal_digitChar hd, ih hds]

/-- Helper: a dictionary one of whose values is a non-serializable object
fails to render, with `TypeError`. -/
theorem dumpsPairs_obj_mem (kvs : List (String × PyVal))
    (h : ∃ p ∈ kvs, ∃ t, p.2 = PyVal.obj t) :
    dumpsPairs kvs = .error .typeError := by
  induction kvs with
  | nil => simp at h
  | cons kv rest ih =>
      obtain ⟨p, hp, t, ht⟩ := h
      rcases List.mem_cons.mp hp with hEq | hmem
      · subst hEq
        simp [dumpsPairs, ht, dumpsVal, Bind.bind, Except.bind]
      · cases hdv : dumpsVal kv.2 with
        | ok s =>
            simp [dumpsPairs, hdv, ih ⟨p, hmem, t, ht⟩, Bind.bind, Except.bind]
        | error e =>
            cases e
            simp [dumpsPairs, hdv, Bind.bind, Except.bind]

/-- Helper: the key computation raises `TypeError` when any argument value
is a non-serializable object. -/
theorem _get_cache_key_err (func_name : String) (kwargs : List (String × PyVal))
    (h : ∃ p ∈ kwargs, ∃ t, p.2 = PyVal.obj t) :
    _get_cache_key func_name kwargs = .error .typeError := by
  simp [_get_cache_key, dumpsVal, dumpsPairs, dumpsPairs_obj_mem kwargs h,
    Bind.bind, Except.bind, Except.map]

/-- Round trip: parsing a formatted timestamp returns the timestamp. -/
theorem fromIsoFormat_isoFormat (n : Nat) : fromIsoFormat (isoFormat n) = some n := by
  by_cases hn : n = 0
  · subst hn; rfl
  · have hne : Nat.digits 10 n ≠ [] := Nat.digits_ne_nil_iff_ne_zero.mpr hn
    have hlt : ∀ d ∈ (Nat.digits 10 n).reverse, d < 10 := by
      intro d hd
      exact Nat.digits_lt_base (by norm_num) (List.mem_reverse.mp hd)
    have hmap : ((Nat.digits 10 n).map Nat.digitChar).reverse =
        ((Nat.digits 10 n).reverse.map Nat.digitChar) := by
      rw [List.map_reverse]
    simp only [isoFormat, if_neg hn, fromIsoFormat, hmap]
    have hempty : ¬((Nat.digits 10 n).reverse.map Nat.digitChar).isEmpty := by
      simp [List.isEmpty_iff, hne]
    rw [if_neg hempty]
    rw [parseDigitsChars_digitChar _ hlt]
    simp [Nat.ofDigits_digits]

/-- Value lookup after a dictionary assignment: the written key reads the
new value, any other key is untouched. -/
theorem lookup_dictInsert {α β : Type} [DecidableEq α]
    (d : List (α × β)) (k i : α) (v : β) :
    List.lookup i (dictInsert d k v) = if i = k then some v else List.lookup i d := by
  induction d with
  | nil =>
      by_cases h : i = k
      · subst h; simp [dictInsert]
      · simp [dictInsert, List.lookup_cons, beq_false_of_ne h, h]
  | cons kv rest ih =>
      obtain ⟨k0, v0⟩ := kv
      by_cases h0 : k0 = k
      · subst h0
        by_cases h1 : i = k0
        · subst h1; simp [dictInsert]
        · simp [dictInsert, List.lookup_cons, beq_false_of_ne h1, h1]
      · by_cases h1 : i = k0
        · subst h1
          have h2 : ¬i = k := fun he => h0 he
          simp [dictInsert, h0, List.lookup_cons, h2]
        · simp [dictInsert, h0, List.lookup_cons, beq_false_of_ne h1, h1, ih]

/-- Assigning a key that is not present appends one binding. -/
theorem dictInsert_length_fresh {α β : Type} [DecidableEq α]
    (d : List (α × β)) (k : α) (v : β) (h : List.lookup k d = none) :
    (dictInsert d k v).length = d.length + 1 := by
  induction d with
  | nil => rfl
  | cons kv rest ih =>
      obtain ⟨k0, v0⟩ := kv
      rw [List.lookup_cons] at h
      by_cases h0 : k0 = k
      · subst h0
        simp at h
      · have hbeq : (k == k0) = false := beq_false_of_ne (fun he => h0 he.symm)
        rw [hbeq] at h
        simp [dictInsert, h0, ih h]

/-- The collection step is a dictionary assignment of the item's entry. -/
theorem batchStep_eq {α β : Type} [DecidableEq α] (fn : α → Except String β)
    (results : List (α × BatchEntry β)) (item : α) :
    batchStep fn results item = dictInsert results item (batchEntryOf (fn item)) := by
  cases h : fn item <;> simp [batchStep, batchEntryOf, h]

/-- Items not in the submitted list keep their accumulator entry. -/
theorem batchFold_lookup_not_mem {α β : Type} [DecidableEq α]
    (fn : α → Except String β) (items : List α)
    (acc : List (α × BatchEntry β)) (x : α) (hx : x ∉ items) :
    List.lookup x (items.foldl (batchStep fn) acc) = List.lookup x acc := by
  induction items generalizing acc with
  | nil => rfl
  | cons item rest ih =>
      have hxr : x ∉ rest := fun hr => hx (List.mem_cons_of_mem _ hr)
      have hxi : x ≠ item := fun he => hx (he ▸ List.mem_cons_self _ _)
      rw [List.foldl_cons, ih _ hxr, batchStep_eq, lookup_dictInsert]
      simp [hxi]

/-- Every submitted item ends with the entry computed from its own call. -/
theorem batchFold_lookup_mem {α β : Type} [DecidableEq α]
    (fn : α → Except String β) (items : List α)
    (acc : List (α × BatchEntry β)) (x : α) (hx : x ∈ items) :
    List.lookup x (items.foldl (batchStep fn) acc) = some (batchEntryOf (fn x)) := by
  induction items generalizing acc with
  | nil => exact absurd hx (List.not_mem_nil _)
  | cons item rest ih =>
      rw [List.foldl_cons]
      by_cases hxr : x ∈ rest
      · exact ih _ hxr
      · have hxi : x = item := by
          rcases List.mem_cons.mp hx with h | h
          · exact h
          · exact absurd h hxr
        subst hxi
        rw [batchFold_lookup_not_mem fn rest _ x hxr, batchStep_eq, lookup_dictInsert]
        simp

/-- With pairwise-distinct items all fresh for the accumulator, collection
adds exactly one entry per item. -/
theorem batchFold_length {α β : Type} [DecidableEq α]
    (fn : α → Except String β) (items : List α)
    (acc : List (α × BatchEntry β)) (hnd : items.Nodup)
    (hfresh : ∀ i ∈ items, List.lookup i acc = none) :
    (items.foldl (batchStep fn) acc).length = acc.length + items.length := by
  induction items generalizing acc with
  | nil => rfl
  | cons item rest ih =>
      rw [List.foldl_cons]
      have hnd' := (List.nodup_cons.mp hnd).2
      have hni := (List.nodup_cons.mp hnd).1
      have hlen : (batchStep fn acc item).length = acc.length + 1 := by
        rw [batchStep_eq]
        exact dictInsert_length_fresh _ _ _ (hfresh item (List.mem_cons_self _ _))
      have hfresh' : ∀ i ∈ rest, List.lookup i (batchStep fn acc item) = none := by
        intro i hi
        rw [batchStep_eq, lookup_dictInsert]
        have : i ≠ item := fun he => hni (he ▸ hi)
        simp [this, hfresh i (List.mem_cons_of_mem _ hi)]
      rw [ih _ hnd' hfresh', hlen]
      simp [List.length_cons]
      omega

/-- A retry decision only happens strictly before the last allowed attempt:
every retryable handler raises instead once `attempt = max_retries - 1`. -/
theorem attemptStep_retry_lt {o : Outcome} {attempt : Nat} {cfg : RetryConfig}
    {ev : Bool} {sOk : PyVal → Bool} {d : Option Nat}
    (h : attemptStep o attempt cfg ev sOk = .retryAfter d) :
    attempt < cfg.max_retries - 1 := by
  by_cases hlt : attempt < cfg.max_retries - 1
  · exact hlt
  · exfalso
    cases o with
    | response status text body =>
        simp only [attemptStep, _handle_response_status] at h
        split_ifs at h <;>
          first
            | (cases hs : _handle_success_response body ev sOk <;> simp [hs] at h)
            | simp [_handle_rate_limit, hlt] at h
            | simp [_handle_server_error, hlt] at h
            | simp at h
    | timeout =>
        simp only [attemptStep, _handle_timeout_retry] at h
        simp [Nat.le_of_not_lt hlt] at h
    | netError msg =>
        simp only [attemptStep, _handle_network_retry] at h
        simp [hlt] at h

/-- A 200 body rejected by the success handler with a built-in exception
fails the object/sized-data shape check. -/
theorem body200Ok_false_of_inl {body : PyVal} {ev : Bool} {sOk : PyVal → Bool}
    {pe : PyErr} (h : _handle_success_response body ev sOk = .error (.inl pe)) :
    body200Ok body = false := by
  simp only [_handle_success_response] at h
  simp only [body200Ok]
  cases hg : pyGetData body with
  | error e => simp
  | ok dv =>
      simp only [hg] at h ⊢
      cases hl : pyLen dv with
      | error e => simp
      | ok n =>
          simp only [hl] at h ⊢
          split_ifs at h <;> simp_all

/-- An untyped (built-in) exception escapes an attempt only on the 200 path,
and only when the body fails the object/sized-data shape check. -/
theorem attemptStep_raised_inl {o : Outcome} {attempt : Nat} {cfg : RetryConfig}
    {ev : Bool} {sOk : PyVal → Bool} {pe : PyErr}
    (h : attemptStep o attempt cfg ev sOk = .raised (.inl pe)) :
    ∃ text body, o = .response 200 text body ∧ body200Ok body = false := by
  cases o with
  | response status text body =>
      simp only [attemptStep, _handle_response_status] at h
      by_cases h1 : status = 200
      · simp only [if_pos h1] at h
        refine ⟨text, body, by rw [h1], ?_⟩
        cases hs : _handle_success_response body ev sOk with
        | ok v => simp [hs] at h
        | error e =>
            simp only [hs] at h
            simp only [StepResult.raised.injEq] at h
            subst h
            exact body200Ok_false_of_inl hs
      · simp only [if_neg h1] at h
        split_ifs at h <;>
          first
            | (cases hr : _handle_rate_limit attempt cfg.max_retries
                cfg.exponential_backoff_base <;> simp [hr] at h)
            | (cases hr : _handle_server_error status attempt cfg.max_retries
                cfg.exponential_backoff_base <;> simp [hr] at h)
            | simp at h
  | timeout =>
      simp only [attemptStep] at h
      cases hr : _handle_timeout_retry attempt cfg.max_retries <;> simp [hr] at h
  | netError msg =>
      simp only [attemptStep] at h
      cases hr : _handle_network_retry msg attempt cfg.max_retries
        cfg.network_error_delay <;> simp [hr] at h

/-- With attempts left and well-shaped 200 bodies, the retry loop resolves
to a payload or to one typed error -- never to the fall-through `None`. -/
theorem retryLoop_result (transport : Nat → Outcome) (cfg : RetryConfig)
    (ev : Bool) (sOk : PyVal → Bool) (corr : Option String) :
    ∀ remaining attempt, remaining ≠ 0 → attempt + remaining = cfg.max_retries →
    (∀ i text body, transport i = .response 200 text body → body200Ok body = true) →
    (∃ v, (retryLoop transport cfg ev sOk corr remaining attempt).1 = .ok (some v)) ∨
    (∃ e : ApiError, (retryLoop transport cfg ev sOk corr remaining attempt).1 =
      .error (.inr e)) := by
  intro remaining
  induction remaining with
  | zero => intro _ h0; exact absurd rfl h0
  | succ r ih =>
      intro attempt _ hsum hbody
      cases hstep : attemptStep (transport attempt) attempt cfg ev sOk with
      | success v => exact Or.inl ⟨v, by simp [retryLoop, hstep]⟩
      | raised e =>
          cases e with
          | inl pe =>
              obtain ⟨text, body, ho, hbad⟩ := attemptStep_raised_inl hstep
              rw [hbody attempt text body ho] at hbad
              exact absurd hbad (by simp)
          | inr ae => exact Or.inr ⟨ae, by simp [retryLoop, hstep]⟩
      | retryAfter d =>
          have hlt := attemptStep_retry_lt hstep
          have hr : r ≠ 0 := by omega
          have hsum' : (attempt + 1) + r = cfg.max_retries := by omega
          have hres := ih (attempt + 1) hr hsum' hbody
          simpa [retryLoop, hstep] using hres

/-- Every correlation id the loop logs is the one established at entry: no
attempt writes the correlation context. -/
theorem retryLoop_logs (transport : Nat → Outcome) (cfg : RetryConfig)
    (ev : Bool) (sOk : PyVal → Bool) (corr : Option String) :
    ∀ remaining attempt c,
      c ∈ (retryLoop transport cfg ev sOk corr remaining attempt).2.1 → c = corr := by
  intro remaining
  induction remaining with
  | zero => intro attempt c hc; simp [retryLoop] at hc
  | succ r ih =>
      intro attempt c hc
      cases hstep : attemptStep (transport attempt) attempt cfg ev sOk <;>
        simp [retryLoop, hstep] at hc
      · exact hc
      · rcases hc with hc | hc
        · exact hc
        · exact ih (attempt + 1) c hc
      · exact hc

/-- Once OPEN, a failing call leaves the breaker OPEN: it is either
rejected unchanged, or probes in HALF_OPEN and the failure reopens it. -/
theorem call_failure_open_stays_open (cb : CircuitBreaker) (now : Int)
    (h : cb.state = .OPEN) : ((cb.call now false).2).state = .OPEN := by
  by_cases hr : _should_attempt_reset cb now
  · simp [CircuitBreaker.call, cbGate, h, hr, _on_failure]
  · simp [CircuitBreaker.call, cbGate, h, hr]

/-- A sequence of failing calls never leaves the OPEN state. -/
theorem applyFailures_open (cb : CircuitBreaker) (ts : List Int)
    (h : cb.state = .OPEN) : (applyFailures cb ts).state = .OPEN := by
  induction ts generalizing cb with
  | nil => exact h
  | cons t rest ih =>
      rw [applyFailures]
      exact ih _ (call_failure_open_stays_open cb t h)

/-- In CLOSED, one failing call increments the count and opens the breaker
exactly when the count reaches the threshold. -/
theorem call_closed_failure (cb : CircuitBreaker) (now : Int)
    (h : cb.state = .CLOSED) :
    ((cb.call now false).2).failure_count = cb.failure_count + 1 ∧
    ((cb.call now false).2).failure_threshold = cb.failure_threshold ∧
    (cb.failure_threshold ≤ cb.failure_count + 1 →
      ((cb.call now false).2).state = .OPEN) ∧
    (¬cb.failure_threshold ≤ cb.failure_count + 1 →
      ((cb.call now false).2).state = .CLOSED) := by
  have hgate : cbGate cb now = .ok cb := by simp [cbGate, h]
  by_cases hth : cb.failure_threshold ≤ cb.failure_count + 1 <;>
    simp [CircuitBreaker.call, hgate, _on_failure, h, hth]

/-- From CLOSED, consecutive failures that bring the count to the threshold
leave the breaker OPEN. -/
theorem closed_failures_reach_threshold (ts : List Int) :
    ∀ (cb : CircuitBreaker), cb.state = .CLOSED → ts ≠ [] →
    cb.failure_threshold ≤ cb.failure_count + ts.length →
    (applyFailures cb ts).state = .OPEN := by
  induction ts with
  | nil => intro cb _ hne _; exact absurd rfl hne
  | cons t rest ih =>
      intro cb h _ hcount
      rw [applyFailures]
      obtain ⟨hfc, hft, hopen, hclosed⟩ := call_closed_failure cb t h
      by_cases hth : cb.failure_threshold ≤ cb.failure_count + 1
      · exact applyFailures_open _ rest (hopen hth)
      · have hne2 : rest ≠ [] := by
          intro hnil
          subst hnil
          simp only [List.length_cons, List.length_nil] at hcount
          omega
        apply ih _ (hclosed hth) hne2
        rw [hfc, hft]
        simp only [List.length_cons] at hcount
        omega

/-- The gate preserves both counters and the failure time, and changes the
state only by moving OPEN to HALF_OPEN. -/
theorem cbGate_ok_shape (cb cb1 : CircuitBreaker) (now : Int)
    (hg : cbGate cb now = .ok cb1) :
    cb1.success_count = cb.success_count ∧ cb1.failure_count = cb.failure_count ∧
    cb1.failure_threshold = cb.failure_threshold ∧
    cb1.success_threshold = cb.success_threshold ∧
    (cb1.state = cb.state ∨ (cb.state = .OPEN ∧ cb1.state = .HALF_OPEN)) := by
  by_cases h1 : cb.state = .OPEN
  · by_cases h2 : _should_attempt_reset cb now = true
    · simp only [cbGate, if_pos h1, if_pos h2, Except.ok.injEq] at hg
      subst hg
      simp [h1]
    · simp only [cbGate, if_pos h1, if_neg h2] at hg
      cases hg
  · simp only [cbGate, if_neg h1, Except.ok.injEq] at hg
    subst hg
    simp

/-- The invariant behind the mutual-exclusion claim: in every reachable
breaker state, a positive success count forces HALF_OPEN with a zero
failure count. -/
theorem reachable_invariant (ft : Nat) (rt : Int) (st : Nat) (cb : CircuitBreaker)
    (h : Reachable ft rt st cb) :
    0 < cb.success_count → cb.state = .HALF_OPEN ∧ cb.failure_count = 0 := by
  induction h with
  | init => intro h0; simp [CircuitBreaker.mk0] at h0
  | protoReset cb hr ih => intro h0; simp [CircuitBreaker.resetCB] at h0
  | gated cb cb1 now hr hg ih =>
      intro h0
      obtain ⟨hsc, hfc, -, -, hst⟩ := cbGate_ok_shape cb cb1 now hg
      rw [hsc] at h0
      obtain ⟨hihs, hihf⟩ := ih h0
      rcases hst with hst | ⟨hcb, -⟩
      · exact ⟨hst.trans hihs, hfc.trans hihf⟩
      · rw [hihs] at hcb; cases hcb
  | step cb now outcome hr ih =>
      intro h0
      cases hgate : cbGate cb now with
      | error r =>
          have hpost : (cb.call now outcome).2 = cb := by
            simp [CircuitBreaker.call, hgate]
          rw [hpost] at h0 ⊢
          exact ih h0
      | ok cb1 =>
          obtain ⟨hsc, hfc, -, -, hst⟩ := cbGate_ok_shape cb cb1 now hgate
          have hcb1 : 0 < cb1.success_count → cb1.state = .HALF_OPEN := by
            intro hpos
            rw [hsc] at hpos
            obtain ⟨hihs, -⟩ := ih hpos
            rcases hst with hst | ⟨-, hst⟩
            · exact hst.trans hihs
            · exact hst
          cases outcome with
          | true =>
              have hpost : (cb.call now true).2 = _on_success cb1 := by
                simp [CircuitBreaker.call, hgate]
              rw [hpost] at h0 ⊢
              by_cases hho : cb1.state = .HALF_OPEN
              · by_cases hthr : cb1.success_threshold ≤ cb1.success_count + 1
                · simp [_on_success, hho, hthr] at h0
                · simp [_on_success, hho, hthr]
              · simp [_on_success, hho] at h0
                exact absurd (hcb1 h0) hho
          | false =>
              have hpost : (cb.call now false).2 = _on_failure cb1 now := by
                simp [CircuitBreaker.call, hgate]
              rw [hpost] at h0 ⊢
              by_cases hho : cb1.state = .HALF_OPEN
              · simp [_on_failure, hho] at h0
              · by_cases hthr : cb1.failure_threshold ≤ cb1.failure_count + 1
                · simp [_on_failure, hho, hthr] at h0
                · simp [_on_failure, hho, hthr] at h0
                  exact absurd (hcb1 h0) hho

/-- The rendered text of one value, defaulting to the empty string on a
serialization failure (only used under a success hypothesis). -/
def dumpsValD (v : PyVal) : String :=
  match dumpsVal v with
  | .ok s => s
  | .error _ => ""

/-- A successful `dumpsPairs` run renders each entry independently: the
output is the map of per-entry rendering and every value renders. -/
theorem dumpsPairs_ok_shape (kvs : List (String × PyVal))
    (ps : List (String × String)) (h : dumpsPairs kvs = .ok ps) :
    ps = kvs.map (fun kv => (kv.1, dumpsValD kv.2)) ∧
    ∀ kv ∈ kvs, dumpsVal kv.2 = .ok (dumpsValD kv.2) := by
  induction kvs generalizing ps with
  | nil =>
      simp only [dumpsPairs, Except.ok.injEq] at h
      subst h
      simp
  | cons kv rest ih =>
      cases hv : dumpsVal kv.2 with
      | error e => simp [dumpsPairs, hv, Bind.bind, Except.bind] at h
      | ok s =>
          cases hr : dumpsPairs rest with
          | error e => simp [dumpsPairs, hv, hr, Bind.bind, Except.bind] at h
          | ok r =>
              simp only [dumpsPairs, hv, hr, Bind.bind, Except.bind,
                Except.ok.injEq] at h
              subst h
              obtain ⟨hmap, hall⟩ := ih r hr
              have hvD : dumpsValD kv.2 = s := by simp [dumpsValD, hv]
              refine ⟨by simp [hmap, hvD], ?_⟩
              intro p hp
              rcases List.mem_cons.mp hp with rfl | hp
              · rw [hv, hvD]
              · exact hall p hp

/-- Conversely, when every value renders, `dumpsPairs` succeeds with the
map of per-entry rendering. -/
theorem dumpsPairs_ok_of_all (kvs : List (String × PyVal))
    (hall : ∀ kv ∈ kvs, dumpsVal kv.2 = .ok (dumpsValD kv.2)) :
    dumpsPairs kvs = .ok (kvs.map fun kv => (kv.1, dumpsValD kv.2)) := by
  induction kvs with
  | nil => rfl
  | cons kv rest ih =>
      have hv := hall kv (List.mem_cons_self _ _)
      have hrest := ih (fun p hp => hall p (List.mem_cons_of_mem _ hp))
      simp [dumpsPairs, hv, hrest, Bind.bind, Except.bind]

/-- Sorting two permuted rendered entry lists with pairwise-distinct keys
by key yields the same list: the sorted output is unique. -/
theorem mergeSort_pairs_perm_eq (ps qs : List (String × String))
    (hperm : ps.Perm qs) (hnd : (ps.map Prod.fst).Nodup) :
    List.mergeSort ps (fun a b => decide (a.1 ≤ b.1)) =
    List.mergeSort qs (fun a b => decide (a.1 ≤ b.1)) := by
  have htrans : ∀ a b c : String × String,
      decide (a.1 ≤ b.1) → decide (b.1 ≤ c.1) → decide (a.1 ≤ c.1) := by
    intro a b c hab hbc
    simp only [decide_eq_true_eq] at *
    exact le_trans hab hbc
  have htot : ∀ a b : String × String,
      decide (a.1 ≤ b.1) || decide (b.1 ≤ a.1) := by
    intro a b
    simp only [Bool.or_eq_true, decide_eq_true_eq]
    exact le_total a.1 b.1
  have hperm1 :
      (List.mergeSort ps (fun a b => decide (a.1 ≤ b.1))).Perm
        (List.mergeSort qs (fun a b => decide (a.1 ≤ b.1))) :=
    ((List.mergeSort_perm ps _).trans hperm).trans (List.mergeSort_perm qs _).symm
  have hstrict : ∀ l : List (String × String),
      l.Pairwise (fun a b => decide (a.1 ≤ b.1) = true) →
      (l.map Prod.fst).Nodup → l.Pairwise (fun a b => a.1 < b.1) := by
    intro l hp hn
    have hne : l.Pairwise (fun a b => a.1 ≠ b.1) := List.pairwise_map.mp hn
    exact (hp.and hne).imp
      (fun h => lt_of_le_of_ne (by simpa using h.1) h.2)
  have hnd1 : ((List.mergeSort ps (fun a b => decide (a.1 ≤ b.1))).map Prod.fst).Nodup :=
    (List.Perm.nodup_iff ((List.mergeSort_perm ps _).map _)).mpr hnd
  have hndq : ((List.mergeSort qs (fun a b => decide (a.1 ≤ b.1))).map Prod.fst).Nodup := by
    have hq : (qs.map Prod.fst).Nodup := (List.Perm.nodup_iff (hperm.map _)).mp hnd
    exact (List.Perm.nodup_iff ((List.mergeSort_perm qs _).map _)).mpr hq
  have h1 := hstrict _ (List.sorted_mergeSort htrans htot ps) hnd1
  have h2 := hstrict _ (List.sorted_mergeSort htrans htot qs) hndq
  haveI : IsAntisymm (String × String) (fun a b => a.1 < b.1) :=
    ⟨fun a b hab hba => absurd hba (lt_asymm hab)⟩
  exact List.eq_of_perm_of_sorted hperm1 h1 h2

/-- Keys depend on the argument dictionary only through its rendered text. -/
theorem _get_cache_key_congr (func_name : String)
    (kw1 kw2 : List (String × PyVal))
    (h : dumpsVal (.dict kw1) = dumpsVal (.dict kw2)) :
    _get_cache_key func_name kw1 = _get_cache_key func_name kw2 := by
  have houter :
      dumpsPairs [("func", PyVal.str func_name), ("args", PyVal.dict kw1)] =
      dumpsPairs [("func", PyVal.str func_name), ("args", PyVal.dict kw2)] := by
    simp only [dumpsPairs]
    rw [h]
  unfold _get_cache_key
  simp only [dumpsVal]
  rw [houter]

/-- All inner serializations needed by the key-space argument succeed. -/
theorem injKw_dumps_ok (n : Nat) : ∃ s,
    dumpsVal (.dict [("func", .str "f"), ("args", .dict (injKw n))]) = .ok s := by
  simp [injKw, dumpsVal, dumpsPairs, Bind.bind, Except.bind]

/-- The numeric digest behind any key lies in the 256-bit space. -/
theorem keyDigest_lt (fn : String) (kw : List (String × PyVal)) :
    keyDigest fn kw < 2 ^ 256 := by
  unfold keyDigest
  split
  · exact digestNat_lt _ (sha256Words_bounded _)
  · norm_num

/-! Claim theorems. -/

/-- C1: the claim (and the repository's own `test_retry_jitter.py`, which
imports a `_calculate_backoff_with_jitter` that does not exist in
`api_client.py`) requires `delay = uniform(0, min(base**attempt, cap))`,
with more than 10 distinct values across 50 samples. The shipped handlers
instead sleep the deterministic, uncapped `base**attempt`: at attempt 3 with
base 2 every one of 50 samples is exactly 8 seconds (a single distinct
value), and at attempt 10 the server-error handler sleeps 1024 seconds,
exceeding the cap 5 that `min(base**attempt, cap)` would impose. -/
theorem C1_backoff_deterministic_and_uncapped :
    _handle_rate_limit 3 10 2 = .ok (some 8) ∧
    (List.range 50).map (fun _ => _handle_rate_limit 3 10 2) =
      List.replicate 50 (Except.ok (some 8)) ∧
    _handle_server_error 503 10 20 2 = .ok (some 1024) ∧ 5 < 1024 :=
  ⟨rfl, rfl, rfl, by norm_num⟩

/-- C5 counterexample: the results dictionary is keyed by item, so a list
with a duplicated item gets one entry for it: two submitted items, one
result entry -- the result count does not equal the item count. -/
theorem C5_counterexample_duplicate_items :
    (execute_batch (fun _ : String => Except.ok (0 : Nat)) ["a", "a"]).length = 1 ∧
    (["a", "a"] : List String).length = 2 :=
  ⟨rfl, rfl⟩

/-- C5 amended: for pairwise-distinct items the result count equals the item
count; every submitted item is mapped to the entry computed from its own
call (the function's value on success, the error record on failure), the
collection itself never raises (it is total by construction: `except
Exception` catches every per-item failure), and an item's entry depends only
on that item's own outcome, so one failing item cannot affect the others. -/
theorem C5_execute_batch_results {α β : Type} [DecidableEq α]
    (fn g : α → Except String β) (items : List α) (x : α) :
    (items.Nodup → (execute_batch fn items).length = items.length) ∧
    (x ∈ items →
      List.lookup x (execute_batch fn items) = some (batchEntryOf (fn x))) ∧
    (x ∈ items → fn x = g x →
      List.lookup x (execute_batch fn items) =
        List.lookup x (execute_batch g items)) := by
  refine ⟨?_, ?_, ?_⟩
  · intro hnd
    have := batchFold_length fn items [] hnd (by intro i _; rfl)
    simpa [execute_batch] using this
  · intro hx
    exact batchFold_lookup_mem fn items [] x hx
  · intro hx heq
    rw [execute_batch, execute_batch, batchFold_lookup_mem fn items [] x hx,
      batchFold_lookup_mem g items [] x hx, heq]

/-- C7: `set` then `get` on the same key before the expiry time returns the
exact original serializable value, nested structure included; once
`now + ttl` has been reached, the same `get` is a miss that removes the
entry. -/
theorem C7_set_then_get (store store1 : CacheStore) (key : String) (v : PyVal)
    (now1 now2 ttl : Nat) (hser : ∃ s, dumpsVal v = .ok s)
    (hset : cacheSet store now1 ttl key v = .ok store1) :
    (now2 < now1 + ttl → cacheGet store1 now2 key = .ok (some v, store1)) ∧
    (now1 + ttl ≤ now2 → cacheGet store1 now2 key = .ok (none, storeErase store1 key)) := by
  obtain ⟨s, hs⟩ := hser
  have hdoc : ∃ u, dumpsVal (cacheEntryDoc now1 ttl v) = .ok u := by
    simp [cacheEntryDoc, dumpsVal, dumpsPairs, hs, Bind.bind, Except.bind]
  obtain ⟨u, hu⟩ := hdoc
  have hstore1 : store1 = (key, some (cacheEntryDoc now1 ttl v)) :: storeErase store key := by
    simp [cacheSet, hu] at hset
    exact hset.symm
  subst hstore1
  constructor
  · intro hlt
    simp [cacheGet, List.lookup, cacheEntryDoc, fromIsoFormat_isoFormat,
      Nat.not_le.mpr hlt]
  · intro hle
    simp [cacheGet, List.lookup, cacheEntryDoc, fromIsoFormat_isoFormat, hle]

/-- C8 counterexample: a decodable file whose document is not a JSON object
(here the number 5), and a JSON object whose `expires_at` is not a string
(structurally incomplete / malformed timestamp in the claim's terms), both
raise an uncaught `TypeError` out of `get` -- no miss, and the file is not
removed. -/
theorem C8_counterexample_typeerror_escapes :
    cacheGet [("k", some (PyVal.int 5))] 0 "k" = .error .typeError ∧
    cacheGet [("k", some (PyVal.dict
      [("expires_at", PyVal.int 99), ("value", PyVal.int 1)]))] 0 "k" =
      .error .typeError :=
  ⟨rfl, rfl⟩

/-- C8 amended: for the corruption shapes the `except` clause actually
covers -- undecodable bytes, a JSON object with no `expires_at` field, a
string-valued but malformed timestamp, or a well-timestamped object with no
`value` field -- `get` is a miss, removes the file, and surfaces no error.
(A decodable non-object document or a non-string `expires_at` instead
raises an uncaught `TypeError`, per the counterexample.) -/
theorem C8_handled_corruption_is_removed_miss (store : CacheStore) (key : String)
    (now : Nat) (content : Option PyVal)
    (hlook : List.lookup key store = some content)
    (h : content = none ∨
      (∃ kvs, content = some (.dict kvs) ∧
        List.lookup "expires_at" kvs = none) ∨
      (∃ kvs s, content = some (.dict kvs) ∧
        List.lookup "expires_at" kvs = some (.str s) ∧ fromIsoFormat s = none) ∨
      (∃ kvs s t, content = some (.dict kvs) ∧
        List.lookup "expires_at" kvs = some (.str s) ∧ fromIsoFormat s = some t ∧
        List.lookup "value" kvs = none)) :
    cacheGet store now key = .ok (none, storeErase store key) := by
  rcases h with h | ⟨kvs, h, hexp⟩ | ⟨kvs, s, h, hexp, hiso⟩ |
    ⟨kvs, s, t, h, hexp, hiso, hval⟩ <;> subst h
  · simp [cacheGet, hlook]
  · simp [cacheGet, hlook, hexp]
  · simp [cacheGet, hlook, hexp, hiso]
  · simp only [cacheGet, hlook, hexp, hiso]
    split_ifs <;> simp [hval]

/-- C10: a keyword-argument set containing a non-JSON-serializable value
makes the key computation raise an uncaught `TypeError`: `cached_call`
neither returns nor caches anything (whatever the wrapped function would
do); and the cache-enabled branch of `call_traffic_api` passes the
`EdgeGridAuth` and `ConfigLoader` objects themselves in its keyword
arguments, so it always raises this `TypeError`. -/
theorem C10_key_computation_raises_typeerror {ε : Type} (store : CacheStore)
    (now ttl : Nat) (func : Except ε PyVal) (func_name : String)
    (kwargs : List (String × PyVal))
    (h : ∃ p ∈ kwargs, ∃ t, p.2 = PyVal.obj t) :
    cached_call store now ttl func func_name kwargs = .error (.inl .typeError) ∧
    ∀ (inner : Except ε PyVal) (url : String) (params payload : PyVal),
      call_traffic_api_cached store now ttl inner url params payload =
        .error (.inl .typeError) ∧
      ("auth", PyVal.obj "EdgeGridAuth") ∈ call_traffic_api_kwargs url params payload ∧
      ("config_loader", PyVal.obj "ConfigLoader") ∈
        call_traffic_api_kwargs url params payload := by
  constructor
  · simp [cached_call, _get_cache_key_err func_name kwargs h]
  · intro inner url params payload
    have hmem : ∃ p ∈ call_traffic_api_kwargs url params payload,
        ∃ t, p.2 = PyVal.obj t :=
      ⟨("auth", .obj "EdgeGridAuth"), by simp [call_traffic_api_kwargs],
        "EdgeGridAuth", rfl⟩
    refine ⟨?_, by simp [call_traffic_api_kwargs], by simp [call_traffic_api_kwargs]⟩
    simp [call_traffic_api_cached, cached_call, _get_cache_key_err _ _ hmem]

/-- C3: (a) from CLOSED, consecutive operation failures that bring the count
to `failure_threshold` leave the breaker OPEN (and further failing calls
keep it OPEN); (b) while OPEN with at most `recovery_timeout` seconds
elapsed since the last failure, every call is rejected with the
breaker-open error carrying `max 0 (recovery_timeout - (now - last))` --
the result and breaker are the same for every operation outcome, i.e. the
wrapped operation is never invoked; (c) once strictly more than
`recovery_timeout` seconds have elapsed, the next call first transitions
the breaker to HALF_OPEN and then runs the operation. -/
theorem C3_open_rejects_until_recovery :
    (∀ (cb : CircuitBreaker) (ts : List Int), cb.state = .CLOSED → ts ≠ [] →
      cb.failure_threshold ≤ cb.failure_count + ts.length →
      (applyFailures cb ts).state = .OPEN) ∧
    (∀ (cb : CircuitBreaker) (now t : Int), cb.state = .OPEN →
      cb.last_failure_time = some t → now - t ≤ cb.recovery_timeout →
      ∀ outcome, cb.call now outcome =
        (.rejected (max 0 (cb.recovery_timeout - (now - t))), cb)) ∧
    (∀ (cb : CircuitBreaker) (now t : Int), cb.state = .OPEN →
      cb.last_failure_time = some t → cb.recovery_timeout < now - t →
      cbGate cb now = .ok { cb with state := .HALF_OPEN } ∧
      ∀ outcome, (cb.call now outcome).1 = .ran outcome) := by
  refine ⟨fun cb ts h hne hc => closed_failures_reach_threshold ts cb h hne hc, ?_, ?_⟩
  · intro cb now t hopen hlast hle outcome
    have hreset : _should_attempt_reset cb now = false := by
      simp only [_should_attempt_reset, hlast, decide_eq_false_iff_not]
      omega
    simp [CircuitBreaker.call, cbGate, hopen, hreset, _time_until_retry, hlast]
  · intro cb now t hopen hlast hlt
    have hreset : _should_attempt_reset cb now = true := by
      simp only [_should_attempt_reset, hlast, decide_eq_true_eq]
      omega
    refine ⟨by simp [cbGate, hopen, hreset], ?_⟩
    intro outcome
    cases outcome <;> simp [CircuitBreaker.call, cbGate, hopen, hreset]

/-- Witness for C3: a threshold-2 breaker opened by two failures; an OPEN
breaker rejecting with 20s remaining at 10s of a 30s cool-down; the same
breaker gated to HALF_OPEN at 100s. -/
theorem C3_open_rejects_until_recovery_witness :
    (applyFailures (CircuitBreaker.mk0 2 30 1) [0, 1]).state = .OPEN ∧
    (⟨3, 30, 2, .OPEN, 3, 0, some 0⟩ : CircuitBreaker).call 10 true =
      (.rejected (max 0 (30 - (10 - 0))), ⟨3, 30, 2, .OPEN, 3, 0, some 0⟩) ∧
    cbGate (⟨3, 30, 2, .OPEN, 3, 0, some 0⟩ : CircuitBreaker) 100 =
      .ok ⟨3, 30, 2, .HALF_OPEN, 3, 0, some 0⟩ := by
  obtain ⟨h1, h2, h3⟩ := C3_open_rejects_until_recovery
  exact ⟨h1 (CircuitBreaker.mk0 2 30 1) [0, 1] rfl (by decide) (by decide),
    h2 ⟨3, 30, 2, .OPEN, 3, 0, some 0⟩ 10 0 rfl rfl (by decide) true,
    (h3 ⟨3, 30, 2, .OPEN, 3, 0, some 0⟩ 100 0 rfl rfl (by decide)).1⟩

/-- C4 counterexample: with `failure_threshold = 1`, one failure from a
fresh breaker opens it with `failure_count = 1`; after the cool-down the
gate transitions it to HALF_OPEN -- and the state entering HALF_OPEN still
carries `failure_count = 1`, not 0: the transition entering HALF_OPEN does
not reset the failure counter. -/
theorem C4_counterexample_halfopen_keeps_failure_count :
    ((CircuitBreaker.mk0 1 30 2).call 0 false).2.state = .OPEN ∧
    ((CircuitBreaker.mk0 1 30 2).call 0 false).2.failure_count = 1 ∧
    cbGate ((CircuitBreaker.mk0 1 30 2).call 0 false).2 100 =
      .ok { ((CircuitBreaker.mk0 1 30 2).call 0 false).2 with state := .HALF_OPEN } ∧
    ({ ((CircuitBreaker.mk0 1 30 2).call 0 false).2 with
        state := .HALF_OPEN } : CircuitBreaker).failure_count ≠ 0 :=
  ⟨rfl, rfl, rfl, by decide⟩

/-- C4 amended: in every reachable breaker state the counters are mutually
exclusive -- a positive success count forces HALF_OPEN with a zero failure
count; every transition entering CLOSED resets success_count (as does
`reset()`); and failure_count is reset by every successful run of the
operation -- not by the transition entering HALF_OPEN, which keeps the
accumulated failure count until the probe's outcome. -/
theorem C4_counters_mutually_exclusive (ft : Nat) (rt : Int) (st : Nat)
    (cb : CircuitBreaker) (h : Reachable ft rt st cb) :
    (0 < cb.success_count → cb.state = .HALF_OPEN ∧ cb.failure_count = 0) ∧
    (∀ (cb2 : CircuitBreaker) (now : Int) (outcome : Bool),
      (cb2.call now outcome).2.state = .CLOSED → cb2.state ≠ .CLOSED →
      (cb2.call now outcome).2.success_count = 0) ∧
    (∀ cb2 : CircuitBreaker, (CircuitBreaker.resetCB cb2).success_count = 0) ∧
    (∀ (cb2 : CircuitBreaker) (now : Int),
      (cb2.call now true).1 = .ran true →
      (cb2.call now true).2.failure_count = 0) := by
  refine ⟨reachable_invariant ft rt st cb h, ?_, fun cb2 => rfl, ?_⟩
  · intro cb2 now outcome hclosed hne
    cases hgate : cbGate cb2 now with
    | error r =>
        have hpost : (cb2.call now outcome).2 = cb2 := by
          simp [CircuitBreaker.call, hgate]
        rw [hpost] at hclosed
        exact absurd hclosed hne
    | ok cb1 =>
        obtain ⟨hsc, -, -, -, hst⟩ := cbGate_ok_shape cb2 cb1 now hgate
        cases outcome with
        | true =>
            have hpost : (cb2.call now true).2 = _on_success cb1 := by
              simp [CircuitBreaker.call, hgate]
            rw [hpost] at hclosed ⊢
            by_cases hho : cb1.state = .HALF_OPEN
            · by_cases hthr : cb1.success_threshold ≤ cb1.success_count + 1
              · simp [_on_success, hho, hthr]
              · simp [_on_success, hho, hthr] at hclosed
            · simp [_on_success, hho] at hclosed
              rcases hst with hst | ⟨-, hst⟩
              · rw [hst] at hclosed
                exact absurd hclosed hne
              · exact absurd hst hho
        | false =>
            have hpost : (cb2.call now false).2 = _on_failure cb1 now := by
              simp [CircuitBreaker.call, hgate]
            rw [hpost] at hclosed ⊢
            by_cases hho : cb1.state = .HALF_OPEN
            · simp [_on_failure, hho] at hclosed
            · by_cases hthr : cb1.failure_threshold ≤ cb1.failure_count + 1
              · simp [_on_failure, hho, hthr] at hclosed
              · simp [_on_failure, hho, hthr] at hclosed
                rcases hst with hst | ⟨-, hst⟩
                · rw [hst] at hclosed
                  exact absurd hclosed hne
                · exact absurd hst hho
  · intro cb2 now hran
    cases hgate : cbGate cb2 now with
    | error r =>
        have hrej : (cb2.call now true).1 = .rejected r := by
          simp [CircuitBreaker.call, hgate]
        rw [hrej] at hran
        exact absurd hran (by simp)
    | ok cb1 =>
        have hpost : (cb2.call now true).2 = _on_success cb1 := by
          simp [CircuitBreaker.call, hgate]
        rw [hpost]
        by_cases hho : cb1.state = .HALF_OPEN
        · by_cases hthr : cb1.success_threshold ≤ cb1.success_count + 1 <;>
            simp [_on_success, hho, hthr]
        · simp [_on_success, hho]

/-- Witness for C4: a successful run on a CLOSED breaker with two recorded
failures zeroes the failure count, and `reset()` zeroes the success count. -/
theorem C4_counters_mutually_exclusive_witness :
    (((⟨3, 30, 2, .CLOSED, 2, 0, none⟩ : CircuitBreaker).call 5 true).2.failure_count = 0) ∧
    ((CircuitBreaker.resetCB ⟨3, 30, 2, .OPEN, 3, 4, some 0⟩).success_count = 0) := by
  have h := C4_counters_mutually_exclusive 3 30 2 (CircuitBreaker.mk0 3 30 2)
    Reachable.init
  exact ⟨h.2.2.2 ⟨3, 30, 2, .CLOSED, 2, 0, none⟩ 5 rfl,
    h.2.2.1 ⟨3, 30, 2, .OPEN, 3, 4, some 0⟩⟩

/-- C2 counterexample: a 200 response whose decoded body is a JSON array.
`_handle_success_response` computes `len(data.get("data", []))`, and `.get`
on the decoded list raises an uncaught `AttributeError` -- the caller sees a
built-in exception, not one of the typed terminal errors of the taxonomy. -/
theorem C2_counterexample_untyped_attributeerror :
    (_make_api_request_with_retry (fun _ => .response 200 "[]" (PyVal.list []))
      ⟨3, 2, 1⟩ false (fun _ => true) none "cid").1 =
      .error (.inl .attributeError) := rfl

/-- C2 amended: with `max_retries >= 1`, and every 200 response body being a
JSON object whose `data` field (when present) is sized -- the shape of every
conforming payload -- the retrying executor either returns the parsed
payload of a 200 response or raises exactly one typed terminal error; in
particular the loop's final `return None` is unreachable and the caller
never receives `None`. (Without the body-shape proviso a malformed 200 body
raises an untyped built-in exception, per the counterexample.) -/
theorem C2_payload_or_single_typed_error (transport : Nat → Outcome)
    (cfg : RetryConfig) (ev : Bool) (sOk : PyVal → Bool)
    (corr0 : Option String) (fresh : String) (hmr : 1 ≤ cfg.max_retries)
    (hbody : ∀ i text body, transport i = .response 200 text body →
      body200Ok body = true) :
    (∃ v, (_make_api_request_with_retry transport cfg ev sOk corr0 fresh).1 =
      .ok (some v)) ∨
    (∃ e : ApiError, (_make_api_request_with_retry transport cfg ev sOk corr0 fresh).1 =
      .error (.inr e)) := by
  have hres := retryLoop_result transport cfg ev sOk (setupCorrelation corr0 fresh)
    cfg.max_retries 0 (by omega) (by omega) hbody
  simpa [_make_api_request_with_retry] using hres

/-- Witness for C2: 429 on the first attempt, a conforming 200 on the
second, three attempts allowed. -/
theorem C2_payload_or_single_typed_error_witness :
    (∃ v, (_make_api_request_with_retry
      (fun i => if i = 0 then .response 429 "" PyVal.null
                else .response 200 "" (PyVal.dict [("data", PyVal.list [])]))
      ⟨3, 2, 1⟩ false (fun _ => true) none "cid").1 = .ok (some v)) ∨
    (∃ e : ApiError, (_make_api_request_with_retry
      (fun i => if i = 0 then .response 429 "" PyVal.null
                else .response 200 "" (PyVal.dict [("data", PyVal.list [])]))
      ⟨3, 2, 1⟩ false (fun _ => true) none "cid").1 = .error (.inr e)) := by
  refine C2_payload_or_single_typed_error _ _ _ _ _ _ (by norm_num) ?_
  intro i text body h
  by_cases hi : i = 0
  · simp [hi] at h
  · simp only [if_neg hi] at h
    obtain ⟨-, -, hb⟩ := Outcome.response.inj h
    rw [← hb]
    rfl

/-- C9: the correlation id is generated at most once per top-level
operation -- only when none (or an empty one) is active -- and every
attempt of the retry loop logs exactly the id established at entry, so all
log records of one logical call chain carry the same correlation id. -/
theorem C9_correlation_generated_once_and_stable (transport : Nat → Outcome)
    (cfg : RetryConfig) (ev : Bool) (sOk : PyVal → Bool)
    (corr0 : Option String) (fresh : String) :
    (∀ c ∈ (_make_api_request_with_retry transport cfg ev sOk corr0 fresh).2.2.1,
      c = (_make_api_request_with_retry transport cfg ev sOk corr0 fresh).2.1) ∧
    (corrFalsy corr0 = false →
      (_make_api_request_with_retry transport cfg ev sOk corr0 fresh).2.1 = corr0) ∧
    (corrFalsy corr0 = true →
      (_make_api_request_with_retry transport cfg ev sOk corr0 fresh).2.1 =
        some fresh) := by
  refine ⟨?_, ?_, ?_⟩
  · intro c hc
    exact retryLoop_logs transport cfg ev sOk _ cfg.max_retries 0 c hc
  · intro hfalse
    simp [_make_api_request_with_retry, setupCorrelation, hfalse]
  · intro htrue
    simp [_make_api_request_with_retry, setupCorrelation, htrue]

/-- Witness for C9: an already-active id stays; with none active the fresh
id is installed. -/
theorem C9_correlation_witness :
    (_make_api_request_with_retry (fun _ => .timeout) ⟨2, 2, 1⟩ false
      (fun _ => true) (some "abc") "fresh").2.1 = some "abc" ∧
    (_make_api_request_with_retry (fun _ => .timeout) ⟨2, 2, 1⟩ false
      (fun _ => true) none "fresh").2.1 = some "fresh" :=
  ⟨(C9_correlation_generated_once_and_stable (fun _ => .timeout) ⟨2, 2, 1⟩ false
      (fun _ => true) (some "abc") "fresh").2.1 rfl,
   (C9_correlation_generated_once_and_stable (fun _ => .timeout) ⟨2, 2, 1⟩ false
      (fun _ => true) none "fresh").2.2 rfl⟩

/-- C6 counterexample: the key is the 64-hex-character SHA-256 rendering of
the serialized argument set, so the key space is finite while the argument
space is not: two different argument sets must share a key. "Any two
argument sets that differ in any argument produce different keys" is
therefore false of the computation as a function. -/
theorem C6_counterexample_key_collision_exists :
    ∃ kw1 kw2 : List (String × PyVal), kw1 ≠ kw2 ∧
      _get_cache_key "f" kw1 = _get_cache_key "f" kw2 := by
  obtain ⟨m, n, hmn, hF⟩ := Finite.exists_ne_map_eq_of_infinite
    (fun j : Nat => (⟨keyDigest "f" (injKw j), keyDigest_lt "f" (injKw j)⟩ : Fin (2 ^ 256)))
  have hdig : keyDigest "f" (injKw m) = keyDigest "f" (injKw n) :=
    congrArg Fin.val hF
  obtain ⟨s1, hs1⟩ := injKw_dumps_ok m
  obtain ⟨s2, hs2⟩ := injKw_dumps_ok n
  refine ⟨injKw m, injKw n, ?_, ?_⟩
  · intro h
    apply hmn
    simpa [injKw] using h
  · have hd1 : keyDigest "f" (injKw m) = digestNat (sha256Words (utf8Bytes s1)) := by
      simp [keyDigest, hs1]
    have hd2 : keyDigest "f" (injKw n) = digestNat (sha256Words (utf8Bytes s2)) := by
      simp [keyDigest, hs2]
    have hdg : digestNat (sha256Words (utf8Bytes s1)) =
        digestNat (sha256Words (utf8Bytes s2)) := by
      rw [← hd1, ← hd2, hdig]
    simp [_get_cache_key, hs1, hs2, Except.map, sha256hex, hdg]

/-- C6 amended: the key computation is deterministic and order-independent:
two keyword-argument sets that are equal as mappings (a permutation, with
pairwise-distinct keys) produce the identical key regardless of the order
in which the arguments are supplied. Distinct argument sets give distinct
serialized key material, but distinct keys only up to SHA-256 collisions,
which the fixed key width makes unavoidable (see the counterexample). -/
theorem C6_key_order_independent (func_name : String)
    (kw1 kw2 : List (String × PyVal)) (k : String)
    (hperm : kw1.Perm kw2) (hnd : (kw1.map Prod.fst).Nodup)
    (hk : _get_cache_key func_name kw1 = .ok k) :
    _get_cache_key func_name kw2 = .ok k := by
  have hdicts : dumpsVal (.dict kw1) = dumpsVal (.dict kw2) := by
    cases hp1 : dumpsPairs kw1 with
    | error e =>
        exfalso
        cases e
        have hkerr : _get_cache_key func_name kw1 = .error .typeError := by
          simp [_get_cache_key, dumpsVal, dumpsPairs, hp1, Bind.bind,
            Except.bind, Except.map]
        rw [hkerr] at hk
        cases hk
    | ok ps =>
        obtain ⟨hmap, hall⟩ := dumpsPairs_ok_shape kw1 ps hp1
        have hall2 : ∀ kv ∈ kw2, dumpsVal kv.2 = .ok (dumpsValD kv.2) :=
          fun kv hkv => hall kv (hperm.mem_iff.mpr hkv)
        have hp2 := dumpsPairs_ok_of_all kw2 hall2
        have hpermps :
            (kw1.map fun kv => (kv.1, dumpsValD kv.2)).Perm
              (kw2.map fun kv => (kv.1, dumpsValD kv.2)) := hperm.map _
        have hndps :
            ((kw1.map fun kv => (kv.1, dumpsValD kv.2)).map Prod.fst).Nodup := by
          simpa [List.map_map, Function.comp] using hnd
        have hsorteq := mergeSort_pairs_perm_eq _ _ hpermps hndps
        simp only [dumpsVal, hp1, hp2, Bind.bind, Except.bind]
        rw [hmap, hsorteq]
  have hcongr := _get_cache_key_congr func_name kw1 kw2 hdicts
  rw [← hcongr]
  exact hk

/-- Witness for C6: the same two arguments in both orders produce the same
key. -/
theorem C6_key_order_independent_witness :
    ∃ k, _get_cache_key "g" [("a", PyVal.int 1), ("b", PyVal.int 2)] = .ok k ∧
      _get_cache_key "g" [("b", PyVal.int 2), ("a", PyVal.int 1)] = .ok k := by
  have hex : ∃ k, _get_cache_key "g" [("a", PyVal.int 1), ("b", PyVal.int 2)] = .ok k := by
    simp [_get_cache_key, dumpsVal, dumpsPairs, Bind.bind, Except.bind, Except.map]
  obtain ⟨k, hk⟩ := hex
  refine ⟨k, hk, C6_key_order_independent "g" _ _ k ?_ (by decide) hk⟩
  exact List.Perm.swap ("b", PyVal.int 2) ("a", PyVal.int 1) []

/-- Witness for C5 at a concrete two-item batch with one failing item. -/
theorem C5_execute_batch_results_witness :
    (execute_batch
      (fun i : String => if i = "b" then Except.error "boom" else Except.ok (7 : Nat))
      ["a", "b"]).length = 2 ∧
    List.lookup "a" (execute_batch
      (fun i : String => if i = "b" then Except.error "boom" else Except.ok (7 : Nat))
      ["a", "b"]) = some (.result 7) := by
  have h := C5_execute_batch_results
    (fun i : String => if i = "b" then Except.error "boom" else Except.ok (7 : Nat))
    (fun i : String => if i = "b" then Except.error "boom" else Except.ok (7 : Nat))
    ["a", "b"] "a"
  refine ⟨h.1 (by decide), ?_⟩
  rw [h.2.1 (by decide)]
  rfl

/-- Witness for C7 at a concrete nested value: a hit with the exact value
one second before expiry, a removing miss at expiry. -/
theorem C7_set_then_get_witness :
    cacheGet
        [("k", some (cacheEntryDoc 100 50 (PyVal.dict [("a", PyVal.list [PyVal.int 1])])))]
        149 "k" =
      .ok (some (PyVal.dict [("a", PyVal.list [PyVal.int 1])]),
        [("k", some (cacheEntryDoc 100 50 (PyVal.dict [("a", PyVal.list [PyVal.int 1])])))]) ∧
    cacheGet
        [("k", some (cacheEntryDoc 100 50 (PyVal.dict [("a", PyVal.list [PyVal.int 1])])))]
        150 "k" =
      .ok (none, []) := by
  have h1 := C7_set_then_get []
    [("k", some (cacheEntryDoc 100 50 (PyVal.dict [("a", PyVal.list [PyVal.int 1])])))]
    "k" (PyVal.dict [("a", PyVal.list [PyVal.int 1])]) 100 149 50
    (by simp [dumpsVal, dumpsPairs, dumpsList, Bind.bind, Except.bind])
    (by simp [cacheSet, cacheEntryDoc, dumpsVal, dumpsPairs, dumpsList, dumpStr,
      Bind.bind, Except.bind, storeErase])
  have h2 := C7_set_then_get []
    [("k", some (cacheEntryDoc 100 50 (PyVal.dict [("a", PyVal.list [PyVal.int 1])])))]
    "k" (PyVal.dict [("a", PyVal.list [PyVal.int 1])]) 100 150 50
    (by simp [dumpsVal, dumpsPairs, dumpsList, Bind.bind, Except.bind])
    (by simp [cacheSet, cacheEntryDoc, dumpsVal, dumpsPairs, dumpsList, dumpStr,
      Bind.bind, Except.bind, storeErase])
  refine ⟨h1.1 (by norm_num), ?_⟩
  simpa [storeErase] using h2.2 (by norm_num)

/-- Witness for C8 at a concrete undecodable file. -/
theorem C8_handled_corruption_witness :
    cacheGet [("k", none)] 5 "k" = .ok (none, []) := by
  have h := C8_handled_corruption_is_removed_miss [("k", none)] "k" 5 none rfl (Or.inl rfl)
  simpa [storeErase] using h

/-- Witness for C10 at a concrete argument set holding the auth object. -/
theorem C10_key_computation_witness :
    cached_call [] 0 100 (Except.ok (PyVal.int 1) : Except ApiError PyVal) "f"
      [("auth", PyVal.obj "EdgeGridAuth")] = .error (.inl .typeError) := by
  have h := C10_key_computation_raises_typeerror [] 0 100
    (Except.ok (PyVal.int 1) : Except ApiError PyVal) "f"
    [("auth", PyVal.obj "EdgeGridAuth")]
    ⟨("auth", PyVal.obj "EdgeGridAuth"), by simp, "EdgeGridAuth", rfl⟩
  exact h.1

end AkamaiReports
